import Mathlib

/-!
Verification of the `elevated-command` Windows backend (`src/windows.rs`).

Strings are embedded as `List Char` (Rust iterates `str::chars()`), raw
file bytes as `List Nat`.  Every definition is a direct translation of the
corresponding Rust item; the source line numbers are given in the doc
comments.
-/

/-! ### Argument escaper (src/windows.rs 101-136, duplicated verbatim at 294-329) -/

/-- The character class tested by `windows_escape_arg`'s fast path
(src/windows.rs 106): space, tab, newline, double quote and backslash. -/
def isSpecialChar (c : Char) : Bool :=
  c = ' ' || c = '\t' || c = '\n' || c = '"' || c = '\\'

/-- The quoted-body loop of `windows_escape_arg` (src/windows.rs 111-133).
`n` is the running count of not-yet-flushed consecutive backslashes
(`num_backslashes`).  On a quote the run is emitted doubled-plus-one followed
by the quote; on any other character the run is flushed verbatim; at the end
of the string the run is emitted doubled and the closing quote appended. -/
def escBody : List Char → Nat → List Char
  | [], n => List.replicate (2 * n) '\\' ++ ['"']
  | c :: cs, n =>
    if c = '\\' then escBody cs (n + 1)
    else if c = '"' then List.replicate (2 * n + 1) '\\' ++ '"' :: escBody cs 0
    else List.replicate n '\\' ++ c :: escBody cs 0

/-- The function `windows_escape_arg` (src/windows.rs 101-136): empty argument becomes a
quote pair, an argument with no special character is returned unchanged, any
other argument is wrapped in quotes around `escBody`. -/
def windows_escape_arg (arg : List Char) : List Char :=
  if arg = [] then ['"', '"']
  else if arg.any isSpecialChar = false then arg
  else '"' :: escBody arg 0

/-! ### Windows command-shell tokenizer

Modelled from the spec: the shell that re-tokenizes the wrapper script's
command line is `cmd.exe` / `CommandLineToArgvW`, which is not part of this
repository.  The rules below follow spec §4.1: a run of `2N` backslashes
before a quote yields `N` backslashes and the quote toggles in-quote mode, a
run of `2N+1` backslashes before a quote yields `N` backslashes and a literal
quote, backslashes not followed by a quote are literal, and unquoted
space/tab/newline separates tokens. -/

/-- Token delimiters of the shell tokenizer (outside quotes). -/
def isDelim (c : Char) : Bool :=
  c = ' ' || c = '\t' || c = '\n'

/-- One pass of the shell tokenizer.  `k` counts pending backslashes, `cur`
is the token built so far, `started` records whether a token is in progress
(so that `""` yields an empty token rather than none), `inq` is in-quote
mode. -/
def tokAux : List Char → Nat → List Char → Bool → Bool → List (List Char)
  | [], k, cur, started, _ =>
    if started = true ∨ 0 < k then [cur ++ List.replicate k '\\'] else []
  | c :: cs, k, cur, started, inq =>
    if c = '\\' then tokAux cs (k + 1) cur started inq
    else if c = '"' then
      if k % 2 = 1 then
        tokAux cs 0 (cur ++ List.replicate (k / 2) '\\' ++ ['"']) true inq
      else
        tokAux cs 0 (cur ++ List.replicate (k / 2) '\\') true (!inq)
    else if inq = false ∧ isDelim c = true then
      if started = true ∨ 0 < k then
        (cur ++ List.replicate k '\\') :: tokAux cs 0 [] false false
      else
        tokAux cs 0 [] false false
    else
      tokAux cs 0 (cur ++ List.replicate k '\\' ++ [c]) true inq

/-- Tokenize a full command line. -/
def winTokenize (s : List Char) : List (List Char) :=
  tokAux s 0 [] false false

/-! ### Round-trip lemmas for the escaper -/

theorem tokAux_cons_bs (cs : List Char) (k : Nat) (cur : List Char) (started inq : Bool) :
    tokAux ('\\' :: cs) k cur started inq = tokAux cs (k + 1) cur started inq := by
  rw [tokAux]
  simp

theorem tokAux_cons_quote (cs : List Char) (k : Nat) (cur : List Char) (started inq : Bool) :
    tokAux ('"' :: cs) k cur started inq =
      if k % 2 = 1 then
        tokAux cs 0 (cur ++ List.replicate (k / 2) '\\' ++ ['"']) true inq
      else
        tokAux cs 0 (cur ++ List.replicate (k / 2) '\\') true (!inq) := by
  rw [tokAux]
  simp

theorem tokAux_cons_plain (c : Char) (cs : List Char) (k : Nat) (cur : List Char)
    (started : Bool) (hbs : c ≠ '\\') (hq : c ≠ '"') :
    tokAux (c :: cs) k cur started true
      = tokAux cs 0 (cur ++ List.replicate k '\\' ++ [c]) true true := by
  rw [tokAux]
  simp [hbs, hq]

/-- Leading literal backslashes are absorbed into the tokenizer's pending
backslash count. -/
theorem tokAux_backslashes (m : Nat) (rest : List Char) (k : Nat) (cur : List Char)
    (started inq : Bool) :
    tokAux (List.replicate m '\\' ++ rest) k cur started inq
      = tokAux rest (k + m) cur started inq := by
  induction m generalizing k with
  | zero => simp
  | succ m ih =>
    rw [List.replicate_succ, List.cons_append, tokAux_cons_bs, ih]
    have h : k + 1 + m = k + (m + 1) := by omega
    rw [h]

/-- Tokenizing the quoted body produced by `escBody s n` while in quote mode
recovers the pending backslashes followed by `s`. -/
theorem tokAux_escBody (s : List Char) :
    ∀ (n : Nat) (cur : List Char),
      tokAux (escBody s n) 0 cur true true = [cur ++ List.replicate n '\\' ++ s] := by
  induction s with
  | nil =>
    intro n cur
    rw [escBody, tokAux_backslashes, Nat.zero_add, tokAux_cons_quote]
    have h2 : ¬ (2 * n) % 2 = 1 := by omega
    have hd : 2 * n / 2 = n := by omega
    rw [if_neg h2, hd, tokAux]
    simp
  | cons c cs ih =>
    intro n cur
    rw [escBody]
    by_cases hbs : c = '\\'
    · subst hbs
      rw [if_pos rfl, ih]
      simp [List.replicate_succ']
    · rw [if_neg hbs]
      by_cases hq : c = '"'
      · subst hq
        rw [if_pos rfl, tokAux_backslashes, Nat.zero_add, tokAux_cons_quote]
        have h1 : (2 * n + 1) % 2 = 1 := by omega
        have h2 : (2 * n + 1) / 2 = n := by omega
        rw [if_pos h1, h2, ih]
        simp
      · rw [if_neg hq, tokAux_backslashes, Nat.zero_add,
          tokAux_cons_plain c _ _ _ _ hbs hq, ih]
        simp

/-- A character that is not special is not a backslash, not a quote, and not
a token delimiter. -/
theorem not_special_facts (c : Char) (h : isSpecialChar c = false) :
    c ≠ '\\' ∧ c ≠ '"' ∧ isDelim c = false := by
  simp only [isSpecialChar, Bool.or_eq_false_iff, decide_eq_false_iff_not] at h
  exact ⟨h.2, h.1.2, by simp [isDelim, h.1.1.1.1, h.1.1.1.2, h.1.1.2]⟩

/-- Tokenizing a string with no special character (quote-free, so quote mode
is irrelevant) appends it verbatim to the current token. -/
theorem tokAux_no_special (s : List Char) :
    ∀ (cur : List Char) (started inq : Bool),
      (∀ c ∈ s, isSpecialChar c = false) → (started = true ∨ s ≠ []) →
      tokAux s 0 cur started inq = [cur ++ s] := by
  induction s with
  | nil =>
    intro cur started inq _ hst
    have h : started = true := by
      rcases hst with h | h
      · exact h
      · exact absurd rfl h
    subst h
    rw [tokAux, if_pos (Or.inl rfl)]
    simp
  | cons c cs ih =>
    intro cur started inq hspec _
    obtain ⟨hbs, hq, hdelim⟩ := not_special_facts c (hspec c (by simp))
    rw [tokAux, if_neg (by simp [hbs]), if_neg (by simp [hq]),
      if_neg (by simp [hdelim]),
      ih (cur ++ List.replicate 0 '\\' ++ [c]) true inq
        (fun d hd => hspec d (by simp [hd])) (Or.inl rfl)]
    simp

/-- C1: for every argument string, escaping with `windows_escape_arg` and
re-tokenizing the result with the Windows shell tokenizer yields back exactly
the original string as a single token. -/
theorem escape_shell_roundtrip (s : List Char) :
    winTokenize (windows_escape_arg s) = [s] := by
  by_cases hnil : s = []
  · subst hnil
    decide
  · rw [windows_escape_arg, if_neg hnil]
    by_cases hspec : s.any isSpecialChar = false
    · rw [if_pos hspec, winTokenize,
        tokAux_no_special s [] false false (by simpa using hspec) (Or.inr hnil)]
      simp
    · rw [if_neg hspec, winTokenize, tokAux_cons_quote]
      norm_num
      rw [tokAux_escBody s 0 []]
      simp

/-- C9 counterexample: the empty string contains none of space, tab, newline,
quote, backslash, yet `windows_escape_arg` does not return it unchanged — it
returns a pair of quote characters (src/windows.rs 102-104). -/
theorem escape_noop_counterexample :
    ([] : List Char).any isSpecialChar = false ∧
      windows_escape_arg [] = ['"', '"'] ∧ windows_escape_arg [] ≠ [] := by
  refine ⟨by decide, by decide, by decide⟩

/-- C9 amended: every NONEMPTY argument string containing none of space, tab,
newline, double quote, or backslash is returned byte-for-byte unchanged by
`windows_escape_arg`. -/
theorem escape_noop_amended (s : List Char) (hnil : s ≠ [])
    (hspec : s.any isSpecialChar = false) :
    windows_escape_arg s = s := by
  rw [windows_escape_arg, if_neg hnil, if_pos hspec]

/-- Witness for `escape_noop_amended` at the concrete argument "abc". -/
theorem escape_noop_amended_witness :
    windows_escape_arg ['a', 'b', 'c'] = ['a', 'b', 'c'] :=
  escape_noop_amended ['a', 'b', 'c'] (by decide) (by decide)

/-! ### Decimal rendering of numbers (Rust `Display` for integers, used by
`format!` when building sentinel file names and script text) -/

/-- The ASCII digit for a value below ten. -/
def digitChar (d : Nat) : Char := Char.ofNat (48 + d)

/-- Decimal value of an ASCII digit. -/
def digitVal (c : Char) : Nat := c.toNat - 48

/-- Decimal rendering of a natural number, most significant digit first,
as produced by `format!("{}", n)`. -/
def natRepr (n : Nat) : List Char :=
  if h10 : n < 10 then [digitChar n]
  else natRepr (n / 10) ++ [digitChar (n % 10)]
termination_by n
decreasing_by exact Nat.div_lt_self (by omega) (by omega)

/-- Left fold reading a decimal digit string back into a number. -/
def parseDec (l : List Char) : Nat :=
  l.foldl (fun a c => 10 * a + digitVal c) 0

theorem digitVal_digitChar (d : Nat) (h : d < 10) : digitVal (digitChar d) = d := by
  interval_cases d <;> decide

theorem parseDec_natRepr (n : Nat) : parseDec (natRepr n) = n := by
  induction n using Nat.strong_induction_on with
  | _ n ih =>
    rw [natRepr]
    by_cases h10 : n < 10
    · rw [dif_pos h10]
      simp [parseDec, digitVal_digitChar n h10]
    · rw [dif_neg h10, parseDec, List.foldl_append]
      have hdiv : n / 10 < n := Nat.div_lt_self (by omega) (by omega)
      have := ih (n / 10) hdiv
      rw [parseDec] at this
      simp only [this, List.foldl_cons, List.foldl_nil]
      rw [digitVal_digitChar (n % 10) (Nat.mod_lt n (by omega))]
      omega

theorem natRepr_injective : Function.Injective natRepr := by
  intro a b h
  have ha := parseDec_natRepr a
  rw [h, parseDec_natRepr b] at ha
  exact ha.symm

theorem natRepr_isDigit (n : Nat) : ∀ c ∈ natRepr n, c.isDigit = true := by
  induction n using Nat.strong_induction_on with
  | _ n ih =>
    intro c hc
    rw [natRepr] at hc
    have hdig : ∀ d : Nat, d < 10 → (digitChar d).isDigit = true := by
      intro d hd
      interval_cases d <;> decide
    by_cases h10 : n < 10
    · rw [dif_pos h10] at hc
      simp at hc
      subst hc
      exact hdig n h10
    · rw [dif_neg h10] at hc
      rcases List.mem_append.mp hc with h | h
      · exact ih (n / 10) (Nat.div_lt_self (by omega) (by omega)) c h
      · simp at h
        subst h
        exact hdig (n % 10) (Nat.mod_lt n (by omega))

theorem natRepr_ne_nil (n : Nat) : natRepr n ≠ [] := by
  rw [natRepr]
  by_cases h10 : n < 10
  · rw [dif_pos h10]
    simp
  · rw [dif_neg h10]
    simp

/-! ### Sentinel / wrapper artifact names -/

/-- The four per-invocation artifact file names (all created inside the same
temporary directory, whose common prefix is omitted). -/
structure SentinelSet where
  stdoutFile : List Char
  stderrFile : List Char
  exitFile : List Char
  wrapperFile : List Char
deriving DecidableEq

/-- Artifact names of the blocking `output()` path (src/windows.rs 139-146):
every name is derived from `std::process::id()` alone. -/
def outputSentinels (pid : Nat) : SentinelSet where
  stdoutFile := "elevated_cmd_stdout_".toList ++ natRepr pid ++ ".txt".toList
  stderrFile := "elevated_cmd_stderr_".toList ++ natRepr pid ++ ".txt".toList
  exitFile := "elevated_cmd_exitcode_".toList ++ natRepr pid ++ ".txt".toList
  wrapperFile := "elevated_cmd_wrapper_".toList ++ natRepr pid ++ ".bat".toList

/-- The `unique_id` of the streaming `spawn()` path
(src/windows.rs 333-338): `format!("{}_{}", process_id, timestamp)`. -/
def spawnUniqueId (pid ts : Nat) : List Char :=
  natRepr pid ++ '_' :: natRepr ts

/-- Artifact names of the streaming `spawn()` path (src/windows.rs 340-345). -/
def spawnSentinels (pid ts : Nat) : SentinelSet where
  stdoutFile := "elevated_stdout_".toList ++ spawnUniqueId pid ts ++ ".txt".toList
  stderrFile := "elevated_stderr_".toList ++ spawnUniqueId pid ts ++ ".txt".toList
  exitFile := "elevated_exit_".toList ++ spawnUniqueId pid ts ++ ".txt".toList
  wrapperFile := "elevated_wrapper_".toList ++ spawnUniqueId pid ts ++ ".bat".toList

/-- The artifact names an invocation running in process `pid` at millisecond
timestamp `ts` receives on the blocking `output()` path: the code
(src/windows.rs 139-146) consults only `process::id()`; the current time is
not part of the name. -/
def outputInvocationSentinels (pid ts : Nat) : SentinelSet :=
  outputSentinels pid

/-- Splitting at a separator character that occurs in neither left part is
unambiguous. -/
theorem append_sep_inj (sep : Char) (xs : List Char) :
    ∀ (ys : List Char) (xs' ys' : List Char), sep ∉ xs → sep ∉ xs' →
      xs ++ sep :: ys = xs' ++ sep :: ys' → xs = xs' ∧ ys = ys' := by
  induction xs with
  | nil =>
    intro ys xs' ys' _ hx' h
    cases xs' with
    | nil => simpa using h
    | cons c t =>
      simp only [List.nil_append, List.cons_append, List.cons.injEq] at h
      exact absurd (h.1 ▸ List.mem_cons_self c t) hx'
  | cons c t ih =>
    intro ys xs' ys' hx hx' h
    cases xs' with
    | nil =>
      simp only [List.cons_append, List.nil_append, List.cons.injEq] at h
      exact absurd (h.1.symm ▸ List.mem_cons_self c t) hx
    | cons c' t' =>
      simp only [List.cons_append, List.cons.injEq] at h
      obtain ⟨ht, hy⟩ := ih ys t' ys' (fun hm => hx (List.mem_cons_of_mem c hm))
        (fun hm => hx' (List.mem_cons_of_mem c' hm)) h.2
      exact ⟨by rw [h.1, ht], hy⟩

theorem underscore_not_in_natRepr (n : Nat) : '_' ∉ natRepr n := by
  intro h
  have := natRepr_isDigit n '_' h
  simp at this

/-- A one-digit number renders as its single digit. -/
theorem natRepr_small (n : Nat) (h : n < 10) : natRepr n = [digitChar n] := by
  rw [natRepr, dif_pos h]

/-- C3 counterexample: two concurrent invocations of the blocking `output()`
path in the same process (process id 1, distinct millisecond timestamps 0 and
1) receive identical sentinel sets, and the stdout name visibly carries no
timestamp component — only the process id. -/
theorem sentinel_naming_counterexample :
    outputInvocationSentinels 1 0 = outputInvocationSentinels 1 1 ∧
      (0 : Nat) ≠ 1 ∧
      (outputInvocationSentinels 1 0).stdoutFile = "elevated_cmd_stdout_1.txt".toList := by
  refine ⟨rfl, by decide, ?_⟩
  show (outputSentinels 1).stdoutFile = _
  rw [outputSentinels, natRepr_small 1 (by omega)]
  decide

/-- C3 amended: the streaming `spawn()` artifacts are named with the
process-id + timestamp discriminator (two invocations share names exactly
when both the process id and the timestamp coincide), while the blocking
`output()` artifacts are named with the process id alone (two invocations
share names exactly when the process id coincides, regardless of their
timestamps). -/
theorem sentinel_naming_amended :
    (∀ p t p' t' : Nat, spawnSentinels p t = spawnSentinels p' t' ↔ p = p' ∧ t = t') ∧
      (∀ p t p' t' : Nat,
        outputInvocationSentinels p t = outputInvocationSentinels p' t' ↔ p = p') := by
  constructor
  · intro p t p' t'
    constructor
    · intro h
      have hs : (spawnSentinels p t).stdoutFile = (spawnSentinels p' t').stdoutFile := by
        rw [h]
      simp only [spawnSentinels, spawnUniqueId, List.append_assoc, List.cons_append] at hs
      have hs2 := List.append_cancel_left hs
      obtain ⟨hp, ht⟩ := append_sep_inj '_' (natRepr p) _ (natRepr p') _
        (underscore_not_in_natRepr p) (underscore_not_in_natRepr p') hs2
      exact ⟨natRepr_injective hp, natRepr_injective (List.append_cancel_right ht)⟩
    · intro h
      rw [h.1, h.2]
  · intro p t p' t'
    constructor
    · intro h
      have hs : (outputSentinels p).stdoutFile = (outputSentinels p').stdoutFile := by
        rw [show outputSentinels p = outputSentinels p' from h]
      simp only [outputSentinels, List.append_assoc] at hs
      have hs2 := List.append_cancel_left hs
      exact natRepr_injective (List.append_cancel_right hs2)
    · intro h
      simp [outputInvocationSentinels, h]

/-! ### Exit-code sentinel parsing (blocking path src/windows.rs 228-237,
streaming path 503-508) -/

/-- Result of reading a sentinel file and decoding it as UTF-8:
`missing` covers a failed `fs::read` (absent or unreadable file),
`notUtf8` a failed `String::from_utf8`, `text` a decoded string. -/
inductive ReadResult where
  | missing
  | notUtf8
  | text (s : List Char)
deriving DecidableEq

/-- ASCII whitespace trimmed by `str::trim` (the characters that actually
occur around the exit-code digits written by `echo`). -/
def isWsCh (c : Char) : Bool :=
  c = ' ' || c = '\t' || c = '\n' || c = '\r'

/-- Rust `str::trim`: remove leading and trailing whitespace. -/
def trimChars (l : List Char) : List Char :=
  ((l.dropWhile isWsCh).reverse.dropWhile isWsCh).reverse

/-- Digit-string parser underlying `str::parse::<i32>`: nonempty, all
ASCII digits. -/
def parseDigits (l : List Char) : Option Nat :=
  if l ≠ [] ∧ l.all Char.isDigit then some (parseDec l) else none

/-- Rust `str::parse::<i32>`: optional sign, digits, out-of-range means `Err`. -/
def parseI32 (l : List Char) : Option Int :=
  match l with
  | [] => none
  | c :: rest =>
    if c = '+' then
      (parseDigits rest).bind fun n =>
        if n ≤ 2147483647 then some (n : Int) else none
    else if c = '-' then
      (parseDigits rest).bind fun n =>
        if n ≤ 2147483648 then some (-(n : Int)) else none
    else
      (parseDigits (c :: rest)).bind fun n =>
        if n ≤ 2147483647 then some (n : Int) else none

/-- Exit-code extraction of the blocking path (src/windows.rs 229-237):
`trim` then `parse::<i32>().unwrap_or(0)`; a missing file or invalid UTF-8
also yields 0. -/
def parseExitFile : ReadResult → Int
  | .missing => 0
  | .notUtf8 => 0
  | .text s => (parseI32 (trimChars s)).getD 0

/-- The `as u32` cast applied to the parsed exit code before
`ExitStatus::from_raw` (src/windows.rs 250). -/
def toU32 (k : Int) : Nat := (k % 4294967296).toNat

/-! ### Blocking output collector (src/windows.rs 99-254) -/

/-- The `std::process::Output` value as assembled at src/windows.rs 249-253: the raw
status value and the two captured byte buffers. -/
structure OutputResult where
  status : Nat
  stdout : List Nat
  stderr : List Nat
deriving DecidableEq

/-- The collection step of `output()` after the wait completes
(src/windows.rs 228-253): each output sentinel read is
`fs::read(..).unwrap_or_default()` (`none` = read failed ⇒ empty bytes), the
exit sentinel is parsed with `parseExitFile`. -/
def collectOutput (ec : ReadResult) (so se : Option (List Nat)) : OutputResult where
  status := toU32 (parseExitFile ec)
  stdout := so.getD []
  stderr := se.getD []

/-- The failure cases `output()` can surface (`anyhow` error messages). -/
inductive OutputFailure where
  | scriptWrite
  | elevationFailed
deriving DecidableEq

/-- Result of a full `output()` run: what the caller gets, plus the artifact
paths passed to `fs::remove_file`, in order. -/
structure OutputRun where
  result : Except OutputFailure OutputResult
  deleted : List (List Char)

/-- Control flow of `Command::output` (src/windows.rs 99-254).
`writeOk` is whether `fs::write` of the wrapper script succeeded (line 181:
on failure the `?` operator returns the error with no cleanup); `elevOk`
whether `ShellExecuteExW` succeeded and `handleValid` whether `sei.hProcess`
is a valid handle (line 208: on failure the four artifacts are removed —
wrapper, stdout, stderr, exit code, lines 210-213 — and an error returned);
otherwise the process is awaited, the sentinels are collected and the four
artifacts removed (lines 244-247). -/
def runOutput (pid : Nat) (writeOk elevOk handleValid : Bool)
    (ec : ReadResult) (so se : Option (List Nat)) : OutputRun :=
  let ss := outputSentinels pid
  if writeOk = false then
    { result := .error .scriptWrite, deleted := [] }
  else if elevOk = false ∨ handleValid = false then
    { result := .error .elevationFailed,
      deleted := [ss.wrapperFile, ss.stdoutFile, ss.stderrFile, ss.exitFile] }
  else
    { result := .ok (collectOutput ec so se),
      deleted := [ss.wrapperFile, ss.stdoutFile, ss.stderrFile, ss.exitFile] }

/-- C5: after the wait completes, a missing stdout or stderr sentinel yields
empty bytes, the exit-code sentinel parses with default 0 on a missing file,
invalid UTF-8, or any parse failure; the collection step is total (never
panics). -/
theorem collect_defaults (ec : ReadResult) (so se : Option (List Nat)) (s : List Char) :
    (collectOutput ec none se).stdout = [] ∧
      (collectOutput ec so none).stderr = [] ∧
      parseExitFile .missing = 0 ∧
      parseExitFile .notUtf8 = 0 ∧
      parseExitFile (.text s) = (parseI32 (trimChars s)).getD 0 ∧
      (parseI32 (trimChars s) = none → (collectOutput (.text s) so se).status = 0) := by
  refine ⟨rfl, rfl, rfl, rfl, rfl, fun h => ?_⟩
  simp [collectOutput, parseExitFile, h, toU32]

/-- Witness for `collect_defaults`: the exit sentinel text "oops" fails to
parse, so the collected status is 0. -/
theorem collect_defaults_witness :
    (collectOutput (.text ['o', 'o', 'p', 's']) none none).status = 0 :=
  (collect_defaults (.text ['o', 'o', 'p', 's']) none none ['o', 'o', 'p', 's']).2.2.2.2.2
    (by decide)

/-- C8 counterexample: the script-write failure path — a failure path reached
before the Elevated state — returns an error to the caller but deletes
nothing (src/windows.rs 181: the `?` operator propagates the error with no
cleanup), refuting "on every path before the Elevated state is reached all
four artifacts are deleted". -/
theorem elevation_failure_counterexample :
    (runOutput 1 false true true .missing none none).result = .error .scriptWrite ∧
      (runOutput 1 false true true .missing none none).deleted = [] := by
  exact ⟨rfl, rfl⟩

/-- C8 amended: when the OS elevation call fails or returns an invalid
process handle, `output()` returns an error to the caller and deletes all
four artifacts (wrapper script plus three sentinels); on the earlier
script-write failure path the error is returned without deleting anything. -/
theorem elevation_failure_amended (pid : Nat) (elevOk handleValid : Bool)
    (ec : ReadResult) (so se : Option (List Nat))
    (h : elevOk = false ∨ handleValid = false) :
    (runOutput pid true elevOk handleValid ec so se).result = .error .elevationFailed ∧
      (runOutput pid true elevOk handleValid ec so se).deleted =
        [(outputSentinels pid).wrapperFile, (outputSentinels pid).stdoutFile,
          (outputSentinels pid).stderrFile, (outputSentinels pid).exitFile] ∧
      (runOutput pid false elevOk handleValid ec so se).result = .error .scriptWrite ∧
      (runOutput pid false elevOk handleValid ec so se).deleted = [] := by
  rw [runOutput, if_neg (by simp), if_pos h]
  exact ⟨rfl, rfl, rfl, rfl⟩

/-- Witness for `elevation_failure_amended` at process id 2 with a rejected
elevation request. -/
theorem elevation_failure_amended_witness :
    (runOutput 2 true false true .missing none none).result = .error .elevationFailed :=
  (elevation_failure_amended 2 false true .missing none none (Or.inl rfl)).1

/-! ### Wrapper script builders (output: src/windows.rs 148-178,
spawn: src/windows.rs 347-378) -/

/-- The `\r\n` line terminator written by both builders. -/
def crlf : List Char := ['\r', '\n']

/-- One environment line of the `output()` script (src/windows.rs 154-157):
`set NAME=VALUE` with no further escaping. -/
def setLineOutput (kv : List Char × List Char) : List Char :=
  "set ".toList ++ kv.1 ++ '=' :: kv.2 ++ crlf

/-- One environment line of the `spawn()` script (src/windows.rs 354-357):
`set "NAME=VALUE"` — quoted, unlike the output() form. -/
def setLineSpawn (kv : List Char × List Char) : List Char :=
  "set \"".toList ++ kv.1 ++ '=' :: kv.2 ++ '"' :: crlf

/-- The command line of the wrapper script (src/windows.rs 162-175 = 362-375):
escaped program, space-joined escaped arguments when nonempty, and
redirection of both streams into the output sentinels. -/
def commandLine (prog : List Char) (args : List (List Char)) (so se : List Char) : List Char :=
  windows_escape_arg prog
    ++ (if args = [] then []
        else ' ' :: List.intercalate [' '] (args.map windows_escape_arg))
    ++ " 1>\"".toList ++ so ++ "\" 2>\"".toList ++ se ++ '"' :: crlf

/-- The trailing exit-code capture (src/windows.rs 178 = 378): writes
`%ERRORLEVEL%` of the just-run command — not the elevation broker's exit
code — into the exit sentinel. -/
def exitLine (ecPath : List Char) : List Char :=
  "echo %ERRORLEVEL%>\"".toList ++ ecPath ++ ['"']

/-- The full `output()` wrapper script (src/windows.rs 148-178). -/
def buildScriptOut (envs : List (List Char × List Char)) (prog : List Char)
    (args : List (List Char)) (so se ecPath : List Char) : List Char :=
  "@echo off\r\n".toList ++ (envs.map setLineOutput).flatten
    ++ commandLine prog args so se ++ exitLine ecPath

/-- The full `spawn()` wrapper script (src/windows.rs 347-378): identical
except for an additional `setlocal` line and the quoted `set` form. -/
def buildScriptSpawn (envs : List (List Char × List Char)) (prog : List Char)
    (args : List (List Char)) (so se ecPath : List Char) : List Char :=
  "@echo off\r\n".toList ++ "setlocal\r\n".toList ++ (envs.map setLineSpawn).flatten
    ++ commandLine prog args so se ++ exitLine ecPath

/-- The script shape asserted by the claim (and spec §4.2/§6): echo-off
directive, one `set NAME=VALUE` statement per environment entry with the
value not further escaped, the escaped program followed by the escaped
arguments joined by single spaces, redirection of stdout and stderr into the
two output sentinel paths, and a trailing statement writing the just-run
command's exit code to the exit-code sentinel. -/
def claimedWrapperScript (envs : List (List Char × List Char)) (prog : List Char)
    (args : List (List Char)) (so se ecPath : List Char) : List Char :=
  "@echo off\r\n".toList
    ++ (envs.map fun kv => "set ".toList ++ kv.1 ++ '=' :: kv.2 ++ crlf).flatten
    ++ (windows_escape_arg prog
        ++ (if args = [] then []
            else ' ' :: List.intercalate [' '] (args.map windows_escape_arg))
        ++ " 1>\"".toList ++ so ++ "\" 2>\"".toList ++ se ++ '"' :: crlf
        ++ "echo %ERRORLEVEL%>\"".toList ++ ecPath ++ ['"'])

/-- C6 counterexample: for the single environment entry `A=B`, program `p`,
no arguments, the `spawn()` wrapper script is not of the claimed form — it
contains a `setlocal` line and quotes the assignment as `set "A=B"`. -/
theorem wrapper_script_counterexample :
    buildScriptSpawn [(['A'], ['B'])] ['p'] [] ['o'] ['e'] ['c']
      ≠ claimedWrapperScript [(['A'], ['B'])] ['p'] [] ['o'] ['e'] ['c'] := by
  decide

/-- C6 amended: the `output()` wrapper script consists of exactly the claimed
parts; the `spawn()` wrapper script differs only by an additional `setlocal`
statement after the echo-off directive and by wrapping each environment
assignment as `set "NAME=VALUE"`, its remainder being the claimed tail. -/
theorem wrapper_script_amended (envs : List (List Char × List Char)) (prog : List Char)
    (args : List (List Char)) (so se ecPath : List Char) :
    buildScriptOut envs prog args so se ecPath
        = claimedWrapperScript envs prog args so se ecPath ∧
      buildScriptSpawn envs prog args so se ecPath
        = "@echo off\r\nsetlocal\r\n".toList ++ (envs.map setLineSpawn).flatten
            ++ (claimedWrapperScript [] prog args so se ecPath).drop 11 := by
  have hset : setLineOutput
      = fun kv : List Char × List Char => "set ".toList ++ kv.1 ++ '=' :: kv.2 ++ crlf := rfl
  have hdrop : (claimedWrapperScript [] prog args so se ecPath).drop 11
      = commandLine prog args so se ++ exitLine ecPath := by
    show (claimedWrapperScript [] prog args so se ecPath).drop
        ("@echo off\r\n".toList.length) = _
    rw [claimedWrapperScript]
    simp only [List.map_nil, List.flatten_nil, List.append_nil]
    rw [List.drop_left]
    simp [commandLine, exitLine]
  constructor
  · rw [buildScriptOut, claimedWrapperScript, commandLine, exitLine, ← hset]
    simp [List.append_assoc]
  · rw [hdrop, buildScriptSpawn]
    have hh : "@echo off\r\nsetlocal\r\n".toList
        = "@echo off\r\n".toList ++ "setlocal\r\n".toList := by decide
    rw [hh]
    simp [List.append_assoc]

/-! ### UTF-8 conversion of the command parts (src/windows.rs 152-165 and
352-365): every `OsStr` is converted with `.to_str().unwrap()` -/

/-- A command as held by the caller: each part is an `OsString`, modelled as
`some` of its text when it is valid UTF-8 and `none` otherwise
(`OsStr::to_str` returns `None`, so `unwrap` panics). -/
structure CmdModel where
  program : Option (List Char)
  args : List (Option (List Char))
  envs : List (Option (List Char) × Option (List Char))

/-- Unwrapping one environment entry: both the name (src/windows.rs 155) and
the value (line 156) go through `to_str().unwrap()`. -/
def unwrapEnvEntry (kv : Option (List Char) × Option (List Char)) :
    Option (List Char × List Char) :=
  kv.1.bind fun ks => kv.2.map fun vs => (ks, vs)

/-- Sequence a list of fallible conversions (the textbook `mapM` over
`Option`, written out structurally). -/
def optMapM {α β : Type} (f : α → Option β) : List α → Option (List β)
  | [] => some []
  | a :: t => (f a).bind fun b => (optMapM f t).map fun bs => b :: bs

/-- The `output()` script construction with the `to_str().unwrap()` calls made
explicit: a `none` result is the panic (no error value is ever produced). -/
def buildScriptOutChecked (c : CmdModel) (so se ecPath : List Char) :
    Option (List Char) :=
  (optMapM unwrapEnvEntry c.envs).bind fun envs =>
    c.program.bind fun prog =>
      (optMapM id c.args).map fun args =>
        buildScriptOut envs prog args so se ecPath

/-- The `spawn()` script construction, same unwrap structure
(src/windows.rs 352-365). -/
def buildScriptSpawnChecked (c : CmdModel) (so se ecPath : List Char) :
    Option (List Char) :=
  (optMapM unwrapEnvEntry c.envs).bind fun envs =>
    c.program.bind fun prog =>
      (optMapM id c.args).map fun args =>
        buildScriptSpawn envs prog args so se ecPath

theorem optMapM_eq_none {α β : Type} (f : α → Option β) :
    ∀ l : List α, optMapM f l = none ↔ ∃ x ∈ l, f x = none := by
  intro l
  induction l with
  | nil => simp [optMapM]
  | cons a t ih =>
    rw [optMapM]
    cases hf : f a with
    | none => simp [hf]
    | some b => simp [hf, ih]

theorem unwrapEnvEntry_eq_none (kv : Option (List Char) × Option (List Char)) :
    unwrapEnvEntry kv = none ↔ kv.1 = none ∨ kv.2 = none := by
  obtain ⟨k, v⟩ := kv
  cases k <;> cases v <;> simp [unwrapEnvEntry]

/-- C10: `output()` and `spawn()` panic (model: no result at all, rather than
an error) exactly when the program path, some argument, or some environment
name or value is not valid UTF-8; on an all-UTF-8 command the panic branch is
unreachable. -/
theorem utf8_unwrap_panic (c : CmdModel) (so se ecPath : List Char) :
    (buildScriptOutChecked c so se ecPath = none ↔
        c.program = none ∨ (∃ a ∈ c.args, a = none) ∨
          ∃ kv ∈ c.envs, kv.1 = none ∨ kv.2 = none) ∧
      (buildScriptSpawnChecked c so se ecPath = none ↔
        c.program = none ∨ (∃ a ∈ c.args, a = none) ∨
          ∃ kv ∈ c.envs, kv.1 = none ∨ kv.2 = none) := by
  have key : ∀ build : List (List Char × List Char) → List Char → List (List Char) → List Char,
      ((optMapM unwrapEnvEntry c.envs).bind fun envs =>
          c.program.bind fun prog =>
            (optMapM id c.args).map fun args => build envs prog args) = none ↔
        c.program = none ∨ (∃ a ∈ c.args, a = none) ∨
          ∃ kv ∈ c.envs, kv.1 = none ∨ kv.2 = none := by
    intro build
    cases he : optMapM unwrapEnvEntry c.envs with
    | none =>
      rw [optMapM_eq_none] at he
      simp only [Option.none_bind]
      obtain ⟨kv, hkv, hnone⟩ := he
      simp only [true_iff]
      exact Or.inr (Or.inr ⟨kv, hkv, (unwrapEnvEntry_eq_none kv).mp hnone⟩)
    | some envs =>
      have henvs : ¬ ∃ kv ∈ c.envs, kv.1 = none ∨ kv.2 = none := by
        intro hex
        obtain ⟨kv, hkv, hnone⟩ := hex
        have hm : optMapM unwrapEnvEntry c.envs = none :=
          (optMapM_eq_none unwrapEnvEntry c.envs).mpr
            ⟨kv, hkv, (unwrapEnvEntry_eq_none kv).mpr hnone⟩
        rw [he] at hm
        exact Option.noConfusion hm
      cases hp : c.program with
      | none => simp [henvs]
      | some prog =>
        cases ha : optMapM id c.args with
        | none =>
          rw [optMapM_eq_none] at ha
          simp only [id] at ha
          simp [henvs, ha]
        | some args =>
          have hargs : ¬ ∃ a ∈ c.args, a = none := by
            intro hex
            have hm : optMapM id c.args = none := by
              rw [optMapM_eq_none]
              simpa using hex
            rw [ha] at hm
            exact Option.noConfusion hm
          simp [henvs, hargs]
  exact ⟨key fun envs prog args => buildScriptOut envs prog args so se ecPath,
    key fun envs prog args => buildScriptSpawn envs prog args so se ecPath⟩

/-! ### Streaming monitor (src/windows.rs 421-567)

The monitor is a polling loop; each iteration observes the current state of
the three sentinel files and the elapsed time.  An `Obs` is one such
observation: `elapsedMs` is `start.elapsed()` at the top of the iteration,
`stdoutData`/`stderrData` the full current contents of the two output
sentinels (an absent file behaves as empty), `exitData` the outcome of
reading the exit sentinel, and `stdoutFinal`/`stderrFinal` the contents seen
by the final flush re-read (lines 513-547) after the 50 ms settle delay.
The unused `files_appeared` flag (lines 439, 456-458) is not modelled: it is
written but never read.  Timeout constant: `max_wait` = 120 s = 120000 ms
(line 432). -/

/-- The `CommandEvent` type (declared in the crate root, variants as constructed at
src/windows.rs 444, 470, 489, 523, 541, 550): stdout/stderr chunks, the
terminal exit event, and a string error event. -/
inductive CommandEvent where
  | Stdout (data : List Nat)
  | Stderr (data : List Nat)
  | Terminated (code : Option Int)
  | Error (msg : List Char)
deriving DecidableEq

/-- One observation of the sentinel files by the polling loop. -/
structure Obs where
  elapsedMs : Nat
  stdoutData : List Nat
  stderrData : List Nat
  exitData : ReadResult
  stdoutFinal : List Nat
  stderrFinal : List Nat

/-- The four artifacts the monitor may delete. -/
inductive Artifact where
  | wrapperA
  | stdoutA
  | stderrA
  | exitA
deriving DecidableEq

/-- What a monitor run produces: the events sent over the channel in order,
and the artifacts passed to `fs::remove_file`, in order. -/
structure MonitorRes where
  events : List CommandEvent
  deleted : List Artifact
deriving DecidableEq

/-- The timeout error message (src/windows.rs 445). -/
def timeoutMsg : List Char :=
  "Timeout: Process did not start or complete. UAC may have been cancelled.".toList

/-- The new suffix of an output sentinel (src/windows.rs 461-475): when the
file length exceeds the last-read offset, the bytes from the offset on. -/
def newChunk (data : List Nat) (pos : Nat) : List Nat :=
  if pos < data.length then data.drop pos else []

/-- The chunk events one read emits: the new suffix if it is nonempty
(src/windows.rs 469-471). -/
def chunkEvents (mk : List Nat → CommandEvent) (data : List Nat) (pos : Nat) :
    List CommandEvent :=
  if newChunk data pos = [] then [] else [mk (newChunk data pos)]

/-- The advanced read offset (src/windows.rs 472): old position plus bytes
actually read. -/
def nextPos (data : List Nat) (pos : Nat) : Nat :=
  if pos < data.length then data.length else pos

/-- The completion test (src/windows.rs 499-508): the exit sentinel read
terminates the loop exactly when it holds UTF-8 text whose trimmed form is
nonempty; the event code is `parse::<i32>().ok()`. -/
def terminalCode : ReadResult → Option (Option Int)
  | .missing => none
  | .notUtf8 => none
  | .text s => if trimChars s = [] then none else some (parseI32 (trimChars s))

/-- The polling loop of `monitor_output_files_windows`
(src/windows.rs 441-566).  `i` counts iterations (the observation index),
`pOut`/`pErr` are `stdout_pos`/`stderr_pos`.  Each iteration: first the
timeout check (lines 443-453, emits the timeout error and removes wrapper,
stdout, stderr, exit in that order), then the two incremental reads, then the
completion check (lines 499-562: final flush of both streams from the
advanced offsets, the `Terminated` event, and removal of stdout, stderr,
exit, wrapper in that order).  `fuel` bounds the number of iterations
modelled; the real loop never exhausts it because elapsed time grows without
bound (see the timeout hypotheses of the theorems below). -/
def monitorLoop (env : Nat → Obs) : Nat → Nat → Nat → Nat → MonitorRes
  | 0, _, _, _ => ⟨[], []⟩
  | fuel + 1, i, pOut, pErr =>
    let o := env i
    if 120000 < o.elapsedMs then
      ⟨[CommandEvent.Error timeoutMsg],
        [Artifact.wrapperA, Artifact.stdoutA, Artifact.stderrA, Artifact.exitA]⟩
    else
      let outEv := chunkEvents CommandEvent.Stdout o.stdoutData pOut
      let pOut2 := nextPos o.stdoutData pOut
      let errEv := chunkEvents CommandEvent.Stderr o.stderrData pErr
      let pErr2 := nextPos o.stderrData pErr
      match terminalCode o.exitData with
      | some code =>
        let finOut := chunkEvents CommandEvent.Stdout o.stdoutFinal pOut2
        let finErr := chunkEvents CommandEvent.Stderr o.stderrFinal pErr2
        ⟨outEv ++ errEv ++ finOut ++ finErr ++ [CommandEvent.Terminated code],
          [Artifact.stdoutA, Artifact.stderrA, Artifact.exitA, Artifact.wrapperA]⟩
      | none =>
        let r := monitorLoop env fuel (i + 1) pOut2 pErr2
        ⟨outEv ++ errEv ++ r.events, r.deleted⟩

/-- A full monitor run (spawned at src/windows.rs 408-410): the loop from
iteration 0 with both offsets at 0. -/
def monitorRun (env : Nat → Obs) (fuel : Nat) : MonitorRes :=
  monitorLoop env fuel 0 0 0

/-- Chunk events test. -/
def isChunkEvent : CommandEvent → Bool
  | .Stdout _ => true
  | .Stderr _ => true
  | _ => false

/-- Terminal events test. -/
def isTerminalEvent : CommandEvent → Bool
  | .Terminated _ => true
  | .Error _ => true
  | _ => false

/-- Every event produced by an incremental read is a chunk event. -/
theorem chunkEvents_chunk (mk : List Nat → CommandEvent)
    (hmk : ∀ b, isChunkEvent (mk b) = true) (d : List Nat) (p : Nat) :
    ∀ e ∈ chunkEvents mk d p, isChunkEvent e = true := by
  intro e he
  rw [chunkEvents] at he
  split at he
  · simp at he
  · simp at he
    rw [he]
    exact hmk _

/-- C2: provided elapsed time eventually exceeds the 120 s ceiling (true of
real time, here a hypothesis on the observation trace), a monitor run's event
sequence is a list of stdout/stderr chunk events followed by exactly one
terminal event (`Terminated` or `Error`); nothing follows the terminal event
and no other terminal event occurs. -/
theorem event_stream_shape (env : Nat → Obs) (fuel : Nat) :
    ∀ (i pOut pErr : Nat), (∃ j, j < fuel ∧ 120000 < (env (i + j)).elapsedMs) →
      ∃ pre t, (monitorLoop env fuel i pOut pErr).events = pre ++ [t] ∧
        isTerminalEvent t = true ∧ ∀ e ∈ pre, isChunkEvent e = true := by
  induction fuel with
  | zero =>
    intro i pOut pErr h
    obtain ⟨j, hj, _⟩ := h
    omega
  | succ fuel ih =>
    intro i pOut pErr h
    rw [monitorLoop]
    by_cases ht : 120000 < (env i).elapsedMs
    · rw [if_pos ht]
      exact ⟨[], .Error timeoutMsg, rfl, rfl, by simp⟩
    · rw [if_neg ht]
      cases hterm : terminalCode (env i).exitData with
      | some code =>
        simp only [hterm]
        refine ⟨chunkEvents .Stdout (env i).stdoutData pOut
            ++ chunkEvents .Stderr (env i).stderrData pErr
            ++ chunkEvents .Stdout (env i).stdoutFinal (nextPos (env i).stdoutData pOut)
            ++ chunkEvents .Stderr (env i).stderrFinal (nextPos (env i).stderrData pErr),
          .Terminated code, rfl, rfl, ?_⟩
        intro e he
        rcases List.mem_append.mp he with he' | he'
        · rcases List.mem_append.mp he' with he2 | he2
          · rcases List.mem_append.mp he2 with he3 | he3
            · exact chunkEvents_chunk CommandEvent.Stdout (fun _ => rfl) _ _ e he3
            · exact chunkEvents_chunk CommandEvent.Stderr (fun _ => rfl) _ _ e he3
          · exact chunkEvents_chunk CommandEvent.Stdout (fun _ => rfl) _ _ e he2
        · exact chunkEvents_chunk CommandEvent.Stderr (fun _ => rfl) _ _ e he'
      | none =>
        simp only [hterm]
        obtain ⟨j, hj, helap⟩ := h
        have hj0 : j ≠ 0 := by
          rintro rfl
          rw [Nat.add_zero] at helap
          omega
        obtain ⟨j', rfl⟩ := Nat.exists_eq_succ_of_ne_zero hj0
        have h' : ∃ j2, j2 < fuel ∧ 120000 < (env (i + 1 + j2)).elapsedMs :=
          ⟨j', by omega, by rw [show i + 1 + j' = i + (j' + 1) by omega]; exact helap⟩
        obtain ⟨pre, t, hev, htm, hch⟩ :=
          ih (i + 1) (nextPos (env i).stdoutData pOut) (nextPos (env i).stderrData pErr) h'
        refine ⟨chunkEvents .Stdout (env i).stdoutData pOut
            ++ chunkEvents .Stderr (env i).stderrData pErr ++ pre, t, ?_, htm, ?_⟩
        · rw [hev]
          simp [List.append_assoc]
        · intro e he
          rcases List.mem_append.mp he with he' | he'
          · rcases List.mem_append.mp he' with he2 | he2
            · exact chunkEvents_chunk CommandEvent.Stdout (fun _ => rfl) _ _ e he2
            · exact chunkEvents_chunk CommandEvent.Stderr (fun _ => rfl) _ _ e he2
          · exact hch e he'

/-- Witness for `event_stream_shape`: a trace whose very first observation is
already past the ceiling terminates with the timeout error immediately. -/
theorem event_stream_shape_witness :
    ∃ pre t,
      (monitorLoop (fun _ => ⟨130000, [], [], .missing, [], []⟩) 1 0 0 0).events
          = pre ++ [t] ∧
        isTerminalEvent t = true ∧ ∀ e ∈ pre, isChunkEvent e = true :=
  event_stream_shape (fun _ => ⟨130000, [], [], .missing, [], []⟩) 1 0 0 0
    ⟨0, by omega, by norm_num⟩

/-- If the exit sentinel never completes, the loop ends in the timeout branch
once elapsed time passes the ceiling: chunk events, then the timeout error,
then removal of all four artifacts. -/
theorem monitorTimeoutAux (env : Nat → Obs) (fuel : Nat)
    (hexit : ∀ j, terminalCode (env j).exitData = none) :
    ∀ (i pOut pErr : Nat), (∃ j, j < fuel ∧ 120000 < (env (i + j)).elapsedMs) →
      ∃ pre, (monitorLoop env fuel i pOut pErr).events
            = pre ++ [CommandEvent.Error timeoutMsg] ∧
        (∀ e ∈ pre, isChunkEvent e = true) ∧
        (monitorLoop env fuel i pOut pErr).deleted
          = [Artifact.wrapperA, Artifact.stdoutA, Artifact.stderrA, Artifact.exitA] := by
  induction fuel with
  | zero =>
    intro i pOut pErr h
    obtain ⟨j, hj, _⟩ := h
    omega
  | succ fuel ih =>
    intro i pOut pErr h
    rw [monitorLoop]
    by_cases ht : 120000 < (env i).elapsedMs
    · rw [if_pos ht]
      exact ⟨[], rfl, by simp, rfl⟩
    · rw [if_neg ht]
      simp only [hexit i]
      obtain ⟨j, hj, helap⟩ := h
      have hj0 : j ≠ 0 := by
        rintro rfl
        rw [Nat.add_zero] at helap
        omega
      obtain ⟨j', rfl⟩ := Nat.exists_eq_succ_of_ne_zero hj0
      have h' : ∃ j2, j2 < fuel ∧ 120000 < (env (i + 1 + j2)).elapsedMs :=
        ⟨j', by omega, by rw [show i + 1 + j' = i + (j' + 1) by omega]; exact helap⟩
      obtain ⟨pre, hev, hch, hdel⟩ :=
        ih (i + 1) (nextPos (env i).stdoutData pOut) (nextPos (env i).stderrData pErr) h'
      refine ⟨chunkEvents .Stdout (env i).stdoutData pOut
          ++ chunkEvents .Stderr (env i).stderrData pErr ++ pre, ?_, ?_, hdel⟩
      · rw [hev]
        simp [List.append_assoc]
      · intro e he
        rcases List.mem_append.mp he with he' | he'
        · rcases List.mem_append.mp he' with he2 | he2
          · exact chunkEvents_chunk CommandEvent.Stdout (fun _ => rfl) _ _ e he2
          · exact chunkEvents_chunk CommandEvent.Stderr (fun _ => rfl) _ _ e he2
        · exact hch e he'

/-- While elapsed time stays at or below the ceiling and the exit sentinel
never completes, the monitor emits no terminal event at all. -/
theorem monitorQuietAux (env : Nat → Obs) (fuel : Nat)
    (hexit : ∀ j, terminalCode (env j).exitData = none)
    (hlow : ∀ j, (env j).elapsedMs ≤ 120000) :
    ∀ (i pOut pErr : Nat),
      ∀ e ∈ (monitorLoop env fuel i pOut pErr).events, isChunkEvent e = true := by
  induction fuel with
  | zero =>
    intro i pOut pErr e he
    simp [monitorLoop] at he
  | succ fuel ih =>
    intro i pOut pErr e he
    rw [monitorLoop, if_neg (by have := hlow i; omega), hexit i] at he
    rcases List.mem_append.mp he with he' | he'
    · rcases List.mem_append.mp he' with he2 | he2
      · exact chunkEvents_chunk CommandEvent.Stdout (fun _ => rfl) _ _ e he2
      · exact chunkEvents_chunk CommandEvent.Stderr (fun _ => rfl) _ _ e he2
    · exact ih (i + 1) _ _ e he'

/-- C4: when the exit-code sentinel never holds nonempty trimmed content, the
monitor emits the timeout `Error` event after elapsed time exceeds the 120 s
ceiling — and no terminal event before that — best-effort deletes all four
artifacts, and stops with no further event. -/
theorem timeout_error_behavior (env : Nat → Obs) (fuel i pOut pErr : Nat)
    (hexit : ∀ j, terminalCode (env j).exitData = none) :
    ((∃ j, j < fuel ∧ 120000 < (env (i + j)).elapsedMs) →
      ∃ pre, (monitorLoop env fuel i pOut pErr).events
            = pre ++ [CommandEvent.Error timeoutMsg] ∧
        (∀ e ∈ pre, isChunkEvent e = true) ∧
        (monitorLoop env fuel i pOut pErr).deleted
          = [Artifact.wrapperA, Artifact.stdoutA, Artifact.stderrA, Artifact.exitA]) ∧
      ((∀ j, (env j).elapsedMs ≤ 120000) →
        ∀ e ∈ (monitorLoop env fuel i pOut pErr).events, isChunkEvent e = true) :=
  ⟨fun h => monitorTimeoutAux env fuel hexit i pOut pErr h,
    fun hlow => monitorQuietAux env fuel hexit hlow i pOut pErr⟩

/-- Witness for `timeout_error_behavior`: a trace that is past the ceiling at
its first observation with a never-appearing exit sentinel yields exactly the
timeout error and full cleanup. -/
theorem timeout_error_behavior_witness :
    ∃ pre, (monitorLoop (fun _ => ⟨130000, [], [], .missing, [], []⟩) 1 0 0 0).events
          = pre ++ [CommandEvent.Error timeoutMsg] ∧
      (∀ e ∈ pre, isChunkEvent e = true) ∧
      (monitorLoop (fun _ => ⟨130000, [], [], .missing, [], []⟩) 1 0 0 0).deleted
        = [Artifact.wrapperA, Artifact.stdoutA, Artifact.stderrA, Artifact.exitA] :=
  (timeout_error_behavior (fun _ => ⟨130000, [], [], .missing, [], []⟩) 1 0 0 0
      (fun _ => rfl)).1 ⟨0, by omega, by norm_num⟩

/-- An ASCII digit is not whitespace. -/
theorem digit_not_ws (c : Char) (h : c.isDigit = true) : isWsCh c = false := by
  rw [isWsCh]
  simp only [Bool.or_eq_false_iff, decide_eq_false_iff_not]
  refine ⟨⟨⟨?_, ?_⟩, ?_⟩, ?_⟩ <;> rintro rfl <;> exact absurd h (by decide)

/-- Trimming the `echo` output `K\r\n` leaves exactly the digits of `K`. -/
theorem trim_natRepr_crlf (K : Nat) : trimChars (natRepr K ++ crlf) = natRepr K := by
  obtain ⟨c, t, hct⟩ := List.exists_cons_of_ne_nil (natRepr_ne_nil K)
  have hc : isWsCh c = false :=
    digit_not_ws c (natRepr_isDigit K c (by rw [hct]; exact List.mem_cons_self c t))
  obtain ⟨d, u, hdu⟩ := List.exists_cons_of_ne_nil
    (show (natRepr K).reverse ≠ [] by simp [natRepr_ne_nil K])
  have hd : isWsCh d = false := digit_not_ws d (natRepr_isDigit K d (by
    have hmem : d ∈ (natRepr K).reverse := by rw [hdu]; exact List.mem_cons_self d u
    simpa using hmem))
  have step1 : (natRepr K ++ crlf).dropWhile isWsCh = natRepr K ++ crlf := by
    rw [hct, List.cons_append, List.dropWhile_cons, if_neg (by simp [hc])]
  have step2 : (natRepr K ++ crlf).reverse = '\n' :: '\r' :: (natRepr K).reverse := by
    rw [List.reverse_append]
    rfl
  rw [trimChars, step1, step2, List.dropWhile_cons, if_pos (by decide),
    List.dropWhile_cons, if_pos (by decide), hdu, List.dropWhile_cons,
    if_neg (by simp [hd]), ← hdu, List.reverse_reverse]

/-- Parsing the decimal rendering of an in-range number succeeds and returns
that number. -/
theorem parseI32_natRepr (K : Nat) (h : K ≤ 2147483647) :
    parseI32 (natRepr K) = some (K : Int) := by
  obtain ⟨c, t, hct⟩ := List.exists_cons_of_ne_nil (natRepr_ne_nil K)
  have hdig : c.isDigit = true :=
    natRepr_isDigit K c (by rw [hct]; exact List.mem_cons_self c t)
  have hplus : c ≠ '+' := by rintro rfl; exact absurd hdig (by decide)
  have hminus : c ≠ '-' := by rintro rfl; exact absurd hdig (by decide)
  rw [hct, parseI32, if_neg hplus, if_neg hminus, ← hct, parseDigits,
    if_pos ⟨natRepr_ne_nil K, by
      rw [List.all_eq_true]
      intro x hx
      exact natRepr_isDigit K x hx⟩,
    parseDec_natRepr]
  simp [h]

/-- C7: for an exit code K with 0 ≤ K ≤ 255 written to the exit-code sentinel
(as the digits of K followed by CRLF, which is what
`echo %ERRORLEVEL%>file` produces), the blocking `output()` status reports K
and the streaming terminal event is `Terminated (some K)`. -/
theorem exit_code_fidelity (K : Nat) (hK : K ≤ 255) :
    (collectOutput (.text (natRepr K ++ crlf)) none none).status = K ∧
      (monitorRun (fun _ => ⟨0, [], [], .text (natRepr K ++ crlf), [], []⟩) 1).events
        = [CommandEvent.Terminated (some (K : Int))] := by
  have htrim := trim_natRepr_crlf K
  have hparse := parseI32_natRepr K (by omega)
  constructor
  · show toU32 (parseExitFile (.text (natRepr K ++ crlf))) = K
    rw [parseExitFile, htrim, hparse, toU32]
    simp only [Option.getD_some]
    omega
  · rw [monitorRun, monitorLoop, if_neg (by norm_num)]
    have hterm : terminalCode (.text (natRepr K ++ crlf))
        = some (some (K : Int)) := by
      rw [terminalCode, htrim, if_neg (natRepr_ne_nil K), hparse]
    simp only [hterm]
    simp [chunkEvents, newChunk, nextPos]

/-- Witness for `exit_code_fidelity` at exit code 42. -/
theorem exit_code_fidelity_witness :
    (collectOutput (.text (natRepr 42 ++ crlf)) none none).status = 42 ∧
      (monitorRun (fun _ => ⟨0, [], [], .text (natRepr 42 ++ crlf), [], []⟩) 1).events
        = [CommandEvent.Terminated (some (42 : Int))] :=
  exit_code_fidelity 42 (by omega)
